import Mathlib

/-!
Verification of the Runinator command-center (Qt/C++) against its
specification.

The development shallowly embeds the C++ sources:

* `src/command-center/src/models/scheduled_task.cpp` — `ScheduledTask`
  JSON (de)serialization (`fromJson`, `toJson`, `parseOptionalDate`,
  `dateOrNull`);
* `src/command-center/src/gossip/gossip_discovery.h` / the gossip
  translation unit — `GossipDiscovery` (`start`, `handleGossip`,
  `updateServiceUrl`, `buildServiceBaseUrl`);
* `src/command-center/src/utils/task_validator.h` — `validateTask`;
* the task editor dialog — `handleSave`.

Qt library types are modelled as follows.  `QString` is `String`
(`QString::trimmed` strips ASCII whitespace; Qt additionally strips other
Unicode space characters, which no theorem here depends on).  `QDateTime`
is the represented instant as milliseconds since the Unix epoch (`Int`):
Qt stores date-times at millisecond resolution and compares them by
instant, and the only datetime operations the sources use —
`toUTC().toString(Qt::ISODateWithMs)` and
`QDateTime::fromString(ISO...)` followed by `setTimeSpec(Qt::UTC)` — are
modelled by `formatIsoMs` / `parseIsoUtc` below, which implement the
documented `yyyy-MM-ddTHH:mm:ss.zzzZ` format over the proleptic Gregorian
calendar.  JSON values are the inductive `Json`; JSON numbers are held as
the mathematical integer stored in the IEEE-754 double, and the C++
`static_cast<double>(qint64)` is modelled exactly by `castInt64ToDouble`
(round to nearest, ties to even).
-/

set_option maxHeartbeats 4000000

/-! ### Gregorian calendar arithmetic (model of Qt's QDate conversions)

`civilFromDays` converts a day count relative to 1970-01-01 (UTC) to a
Gregorian `(year, month, day)` triple and `daysFromCivil` is its inverse,
using era decomposition over the 400-year Gregorian cycle with
March-based years.  All division is mathematical floor division (`Int`'s
`/` is `Int.ediv`). -/

/-- Days from the start of a 400-year Gregorian era to the start of
(March-based) year `y` of that era, valid for `0 ≤ y ≤ 399`. -/
def yearStartOfEra (y : Int) : Int := 365 * y + y / 4 - y / 100

/-- Gregorian `(y, m, d)` to days since 1970-01-01. -/
def daysFromCivil (y m d : Int) : Int :=
  let y' : Int := if m ≤ 2 then y - 1 else y
  let era : Int := y' / 400
  let yoe : Int := y' - era * 400
  let mp : Int := if 2 < m then m - 3 else m + 9
  let doy : Int := (153 * mp + 2) / 5 + d - 1
  let doe : Int := yearStartOfEra yoe + doy
  era * 146097 + doe - 719468

/-- Days since 1970-01-01 to Gregorian `(y, m, d)`.  The year of era is
located by a guess from `doe / 366` corrected upward at most twice. -/
def civilFromDays (z : Int) : Int × Int × Int :=
  let z' : Int := z + 719468
  let era : Int := z' / 146097
  let doe : Int := z' - era * 146097
  let y0 : Int := doe / 366
  let yoe : Int :=
    if y0 + 2 ≤ 399 ∧ yearStartOfEra (y0 + 2) ≤ doe then y0 + 2
    else if y0 + 1 ≤ 399 ∧ yearStartOfEra (y0 + 1) ≤ doe then y0 + 1
    else y0
  let doy : Int := doe - yearStartOfEra yoe
  let mp : Int := (5 * doy + 2) / 153
  let d : Int := doy - (153 * mp + 2) / 5 + 1
  let m : Int := if mp < 10 then mp + 3 else mp - 9
  (if m ≤ 2 then yoe + era * 400 + 1 else yoe + era * 400, m, d)

theorem eraRecover (era yoe y' : Int) (h0 : 0 ≤ yoe) (h1 : yoe ≤ 399)
    (hy : y' = yoe + era * 400) : y' / 400 = era ∧ y' - y' / 400 * 400 = yoe := by
  omega

theorem yoeSelect (doe y0 yoe : Int) (h0 : 0 ≤ doe) (h1 : doe ≤ 146096)
    (hy0 : y0 = doe / 366)
    (hyoe : yoe = if y0 + 2 ≤ 399 ∧ yearStartOfEra (y0 + 2) ≤ doe then y0 + 2
      else if y0 + 1 ≤ 399 ∧ yearStartOfEra (y0 + 1) ≤ doe then y0 + 1 else y0) :
    0 ≤ yoe ∧ yoe ≤ 399 ∧ yearStartOfEra yoe ≤ doe ∧ doe - yearStartOfEra yoe ≤ 365 := by
  simp only [yearStartOfEra] at hyoe ⊢
  split_ifs at hyoe <;> subst hyoe <;> omega

theorem mpRecover (doy mp : Int) (h0 : 0 ≤ doy) (h1 : doy ≤ 365)
    (hmp : mp = (5 * doy + 2) / 153) :
    0 ≤ mp ∧ mp ≤ 11 ∧ (153 * mp + 2) / 5 ≤ doy ∧ doy - (153 * mp + 2) / 5 ≤ 30 := by
  omega

theorem mRecover (mp m : Int) (h0 : 0 ≤ mp) (h1 : mp ≤ 11)
    (hm : m = if mp < 10 then mp + 3 else mp - 9) :
    (if 2 < m then m - 3 else m + 9) = mp ∧ 1 ≤ m ∧ m ≤ 12 ∧ ((m ≤ 2) ↔ 10 ≤ mp) := by
  split_ifs at hm ⊢ <;> omega

/-- Core of the calendar round-trip, stated over named intermediates so
that every integer division has an atomic dividend. -/
theorem daysFromCivil_core (z z' era doe y0 yoe doy mp d m : Int)
    (hz : z' = z + 719468) (hera : era = z' / 146097) (hdoe : doe = z' - era * 146097)
    (hy0 : y0 = doe / 366)
    (hyoe : yoe = if y0 + 2 ≤ 399 ∧ yearStartOfEra (y0 + 2) ≤ doe then y0 + 2
      else if y0 + 1 ≤ 399 ∧ yearStartOfEra (y0 + 1) ≤ doe then y0 + 1 else y0)
    (hdoy : doy = doe - yearStartOfEra yoe)
    (hmp : mp = (5 * doy + 2) / 153)
    (hd : d = doy - (153 * mp + 2) / 5 + 1)
    (hm : m = if mp < 10 then mp + 3 else mp - 9) :
    daysFromCivil (if m ≤ 2 then yoe + era * 400 + 1 else yoe + era * 400) m d = z := by
  have hdoe0 : 0 ≤ doe ∧ doe ≤ 146096 := by
    constructor <;> omega
  obtain ⟨hyA, hyB, hyC, hyD⟩ := yoeSelect doe y0 yoe hdoe0.1 hdoe0.2 hy0 hyoe
  have hdoy0 : 0 ≤ doy ∧ doy ≤ 365 := by omega
  obtain ⟨hmA, hmB, hmC, hmD⟩ := mpRecover doy mp hdoy0.1 hdoy0.2 hmp
  obtain ⟨hrA, hrB, hrC, hrD⟩ := mRecover mp m hmA hmB hm
  simp only [daysFromCivil]
  have hyy : (if m ≤ 2 then (if m ≤ 2 then yoe + era * 400 + 1 else yoe + era * 400) - 1
      else (if m ≤ 2 then yoe + era * 400 + 1 else yoe + era * 400)) = yoe + era * 400 := by
    split_ifs <;> omega
  rw [hyy]
  obtain ⟨heA, heB⟩ := eraRecover era yoe (yoe + era * 400) hyA hyB rfl
  rw [heA, hrA]
  have hcancel : yoe + era * 400 - era * 400 = yoe := by ring
  rw [hcancel]
  simp only [yearStartOfEra] at hdoy ⊢
  omega

/-- `daysFromCivil` inverts `civilFromDays`. -/
theorem daysFromCivil_civilFromDays (z : Int) :
    daysFromCivil (civilFromDays z).1 (civilFromDays z).2.1 (civilFromDays z).2.2 = z := by
  have h := daysFromCivil_core z (z + 719468) ((z + 719468) / 146097)
    ((z + 719468) - ((z + 719468) / 146097) * 146097)
    (((z + 719468) - ((z + 719468) / 146097) * 146097) / 366)
    _ _ _ _ _ rfl rfl rfl rfl rfl rfl rfl rfl rfl
  simpa only [civilFromDays] using h

/-- Bounds core over the same named intermediates. -/
theorem civil_bounds_core (z z' era doe y0 yoe doy mp d m : Int)
    (hz : z' = z + 719468) (hera : era = z' / 146097) (hdoe : doe = z' - era * 146097)
    (hy0 : y0 = doe / 366)
    (hyoe : yoe = if y0 + 2 ≤ 399 ∧ yearStartOfEra (y0 + 2) ≤ doe then y0 + 2
      else if y0 + 1 ≤ 399 ∧ yearStartOfEra (y0 + 1) ≤ doe then y0 + 1 else y0)
    (hdoy : doy = doe - yearStartOfEra yoe)
    (hmp : mp = (5 * doy + 2) / 153)
    (hd : d = doy - (153 * mp + 2) / 5 + 1)
    (hm : m = if mp < 10 then mp + 3 else mp - 9) :
    1 ≤ m ∧ m ≤ 12 ∧ 1 ≤ d ∧ d ≤ 31 := by
  have hdoe0 : 0 ≤ doe ∧ doe ≤ 146096 := by
    constructor <;> omega
  obtain ⟨hyA, hyB, hyC, hyD⟩ := yoeSelect doe y0 yoe hdoe0.1 hdoe0.2 hy0 hyoe
  have hdoy0 : 0 ≤ doy ∧ doy ≤ 365 := by omega
  obtain ⟨hmA, hmB, hmC, hmD⟩ := mpRecover doy mp hdoy0.1 hdoy0.2 hmp
  obtain ⟨hrA, hrB, hrC, hrD⟩ := mRecover mp m hmA hmB hm
  exact ⟨hrB, hrC, by omega, by omega⟩

/-- The month and day produced by `civilFromDays` are in range. -/
theorem civilFromDays_bounds (z : Int) :
    1 ≤ (civilFromDays z).2.1 ∧ (civilFromDays z).2.1 ≤ 12 ∧
    1 ≤ (civilFromDays z).2.2 ∧ (civilFromDays z).2.2 ≤ 31 := by
  have h := civil_bounds_core z (z + 719468) ((z + 719468) / 146097)
    ((z + 719468) - ((z + 719468) / 146097) * 146097)
    (((z + 719468) - ((z + 719468) / 146097) * 146097) / 366)
    _ _ _ _ _ rfl rfl rfl rfl rfl rfl rfl rfl rfl
  simpa only [civilFromDays] using h

/-! ### Fixed-width decimal digits -/

/-- The ASCII character of the decimal digit `d`. -/
def digitChar (d : Nat) : Char := Char.ofNat (48 + d)

/-- `n` printed as exactly `k` decimal digits (most significant first),
zero padded; faithful for `n < 10 ^ k`. -/
def padDigits : Nat → Nat → List Char
  | 0, _ => []
  | k + 1, n => digitChar (n / 10 ^ k % 10) :: padDigits k n

/-- Consume exactly `k` ASCII digits, most significant first. -/
def takeDigits : Nat → Nat → List Char → Option (Nat × List Char)
  | 0, acc, l => some (acc, l)
  | _ + 1, _, [] => none
  | k + 1, acc, c :: l =>
    if 48 ≤ c.toNat ∧ c.toNat ≤ 57 then takeDigits k (acc * 10 + (c.toNat - 48)) l
    else none

theorem digitChar_toNat (d : Nat) (h : d ≤ 9) : (digitChar d).toNat = 48 + d := by
  interval_cases d <;> rfl

theorem takeDigits_padDigits (k : Nat) :
    ∀ (n acc : Nat) (rest : List Char),
      takeDigits k acc (padDigits k n ++ rest) = some (acc * 10 ^ k + n % 10 ^ k, rest) := by
  induction k with
  | zero => intro n acc rest; simp [takeDigits, padDigits, Nat.mod_one]
  | succ k ih =>
    intro n acc rest
    have hd : n / 10 ^ k % 10 ≤ 9 := by omega
    have hc := digitChar_toNat _ hd
    simp only [padDigits, List.cons_append, takeDigits, hc, List.append_eq]
    rw [if_pos (by omega)]
    have heq : acc * 10 + (48 + n / 10 ^ k % 10 - 48) = acc * 10 + n / 10 ^ k % 10 := by omega
    rw [heq, ih n]
    have : (acc * 10 + n / 10 ^ k % 10) * 10 ^ k + n % 10 ^ k = acc * 10 ^ (k + 1) + n % 10 ^ (k + 1) := by
      have hmm : n % (10 ^ k * 10) = n % 10 ^ k + 10 ^ k * (n / 10 ^ k % 10) := Nat.mod_mul
      have hp : (10 : Nat) ^ (k + 1) = 10 ^ k * 10 := pow_succ 10 k
      rw [hp]
      rw [hmm]
      ring
    rw [this]

/-- `takeDigits` on the padding of a small number recovers it exactly. -/
theorem takeDigits_padDigits_small (k n : Nat) (rest : List Char) (h : n < 10 ^ k) :
    takeDigits k 0 (padDigits k n ++ rest) = some (n, rest) := by
  rw [takeDigits_padDigits k n 0 rest]
  rw [Nat.mod_eq_of_lt h]
  norm_num

/-- Number of decimal digits, by fuelled recursion; the fuel 20 covers
every value below `10 ^ 20` (all the 16- and 64-bit quantities this
model renders). -/
def decWidthFuel : Nat → Nat → Nat
  | 0, _ => 1
  | fuel + 1, n => if n < 10 then 1 else decWidthFuel fuel (n / 10) + 1

def decWidth (n : Nat) : Nat := decWidthFuel 20 n

/-- Decimal rendering of a natural number (model of `QString::arg` /
`QString::number` on an unsigned value). -/
def natToDecStr (n : Nat) : String := String.mk (padDigits (decWidth n) n)

theorem decWidthFuel_pos (fuel n : Nat) : 1 ≤ decWidthFuel fuel n := by
  cases fuel with
  | zero => exact le_refl 1
  | succ fuel =>
    unfold decWidthFuel
    split_ifs <;> omega

/-! ### ISO-8601 UTC datetime codec

Model of `QDateTime::toString(Qt::ISODateWithMs)` on a UTC datetime and of
`QDateTime::fromString` with the ISO formats as used by
`ScheduledTask::parseOptionalDate` (which reinterprets the parsed wall
clock as UTC via `setTimeSpec(Qt::UTC)`).  A datetime is its instant in
milliseconds since the Unix epoch.  Qt renders an empty string when the
year is outside 1..9999; the parser accepts the canonical
`yyyy-MM-ddTHH:mm:ss(.zzz)?Z?` productions (Qt additionally accepts UTC
offsets and checks day-of-month against the month length; no theorem
below depends on inputs where that difference matters). -/

/-- Model of `QDateTime::toString(Qt::ISODateWithMs)` for a UTC instant
given in milliseconds since the epoch. -/
def formatIsoMs (t : Int) : String :=
  let day := t / 86400000
  let msod := t % 86400000
  let c := civilFromDays day
  if c.1 < 1 ∨ 9999 < c.1 then "" else
  String.mk (padDigits 4 c.1.toNat ++ ('-' :: (padDigits 2 c.2.1.toNat
    ++ ('-' :: (padDigits 2 c.2.2.toNat
    ++ ('T' :: (padDigits 2 (msod / 3600000).toNat
    ++ (':' :: (padDigits 2 (msod / 60000 % 60).toNat
    ++ (':' :: (padDigits 2 (msod / 1000 % 60).toNat
    ++ ('.' :: (padDigits 3 (msod % 1000).toNat ++ ['Z'])))))))))))))

/-- Consume one expected character. -/
def expectChar (c : Char) : List Char → Option (List Char)
  | x :: l => if x = c then some l else none
  | [] => none

/-- Optional fractional-second part: `.zzz` or nothing. -/
def takeMsPart : List Char → Option (Nat × List Char)
  | '.' :: l => takeDigits 3 0 l
  | l => some (0, l)

/-- Optional trailing UTC designator, then end of input. -/
def takeZedEnd : List Char → Bool
  | ['Z'] => true
  | [] => true
  | _ => false

/-- The `yyyy-MM-dd` date fields of an ISO string. -/
def takeDatePart (l : List Char) : Option (Nat × Nat × Nat × List Char) :=
  (takeDigits 4 0 l).bind fun py =>
  (expectChar '-' py.2).bind fun l2 =>
  (takeDigits 2 0 l2).bind fun pmo =>
  (expectChar '-' pmo.2).bind fun l4 =>
  (takeDigits 2 0 l4).bind fun pdd =>
  some (py.1, pmo.1, pdd.1, pdd.2)

/-- The `HH:mm:ss(.zzz)?` time fields of an ISO string. -/
def takeTimePart (l : List Char) : Option (Nat × Nat × Nat × Nat × List Char) :=
  (takeDigits 2 0 l).bind fun phh =>
  (expectChar ':' phh.2).bind fun l8 =>
  (takeDigits 2 0 l8).bind fun pmi =>
  (expectChar ':' pmi.2).bind fun l10 =>
  (takeDigits 2 0 l10).bind fun pss =>
  (takeMsPart pss.2).bind fun pms =>
  some (phh.1, pmi.1, pss.1, pms.1, pms.2)

/-- Model of ISO-8601 datetime parsing as used by the command-center: the
parsed wall-clock fields are interpreted as UTC. -/
def parseIsoUtc (s : String) : Option Int :=
  (takeDatePart s.data).bind fun pd =>
  (expectChar 'T' pd.2.2.2).bind fun l6 =>
  (takeTimePart l6).bind fun pt =>
  if takeZedEnd pt.2.2.2.2 ∧ 1 ≤ pd.2.1 ∧ pd.2.1 ≤ 12 ∧ 1 ≤ pd.2.2.1 ∧ pd.2.2.1 ≤ 31 ∧
      pt.1 ≤ 23 ∧ pt.2.1 ≤ 59 ∧ pt.2.2.1 ≤ 59 then
    some (daysFromCivil (Int.ofNat pd.1) (Int.ofNat pd.2.1) (Int.ofNat pd.2.2.1) * 86400000
      + (Int.ofNat pt.1) * 3600000 + (Int.ofNat pt.2.1) * 60000 + (Int.ofNat pt.2.2.1) * 1000
      + (Int.ofNat pt.2.2.2.1))
  else none

/-- A millisecond instant whose Gregorian year is within Qt's printable
ISO range 1..9999. -/
def isoFormattable (t : Int) : Prop :=
  1 ≤ (civilFromDays (t / 86400000)).1 ∧ (civilFromDays (t / 86400000)).1 ≤ 9999

instance (t : Int) : Decidable (isoFormattable t) := by
  unfold isoFormattable; infer_instance

theorem expectChar_cons (c : Char) (l : List Char) : expectChar c (c :: l) = some l := by
  simp [expectChar]

theorem String_data_mk (l : List Char) : (String.mk l).data = l := rfl

/-- `takeDatePart` on a canonical `yyyy-MM-dd` production. -/
theorem takeDatePart_canonical (y mo dd : Nat) (rest : List Char)
    (hy : y < 10000) (hmo : mo < 100) (hdd : dd < 100) :
    takeDatePart (padDigits 4 y ++ ('-' :: (padDigits 2 mo ++ ('-' :: (padDigits 2 dd
      ++ rest))))) = some (y, mo, dd, rest) := by
  unfold takeDatePart
  rw [takeDigits_padDigits_small 4 y _ (by omega), Option.some_bind]
  rw [expectChar_cons, Option.some_bind]
  rw [takeDigits_padDigits_small 2 mo _ (by omega), Option.some_bind]
  rw [expectChar_cons, Option.some_bind]
  rw [takeDigits_padDigits_small 2 dd _ (by omega), Option.some_bind]

/-- `takeTimePart` on a canonical `HH:mm:ss.zzz` production. -/
theorem takeTimePart_canonical (hh mi ss ms : Nat) (tail : List Char)
    (hhh : hh < 100) (hmi : mi < 100) (hss : ss < 100) (hms : ms < 1000) :
    takeTimePart (padDigits 2 hh ++ (':' :: (padDigits 2 mi ++ (':' :: (padDigits 2 ss
      ++ ('.' :: (padDigits 3 ms ++ tail))))))) = some (hh, mi, ss, ms, tail) := by
  unfold takeTimePart
  rw [takeDigits_padDigits_small 2 hh _ (by omega), Option.some_bind]
  rw [expectChar_cons, Option.some_bind]
  rw [takeDigits_padDigits_small 2 mi _ (by omega), Option.some_bind]
  rw [expectChar_cons, Option.some_bind]
  rw [takeDigits_padDigits_small 2 ss _ (by omega), Option.some_bind]
  rw [show takeMsPart ('.' :: (padDigits 3 ms ++ tail)) = takeDigits 3 0 (padDigits 3 ms ++ tail)
    from rfl]
  rw [takeDigits_padDigits_small 3 ms _ (by omega), Option.some_bind]

/-- `parseIsoUtc` on a canonical `yyyy-MM-ddTHH:mm:ss.zzzZ` production. -/
theorem parseIsoUtc_canonical (y mo dd hh mi ss ms : Nat)
    (hy : y < 10000) (hmo1 : 1 ≤ mo) (hmo : mo ≤ 12) (hdd1 : 1 ≤ dd) (hdd : dd ≤ 31)
    (hhh : hh ≤ 23) (hmi : mi ≤ 59) (hss : ss ≤ 59) (hms : ms < 1000) :
    parseIsoUtc (String.mk (padDigits 4 y ++ ('-' :: (padDigits 2 mo ++ ('-' :: (padDigits 2 dd
      ++ ('T' :: (padDigits 2 hh ++ (':' :: (padDigits 2 mi ++ (':' :: (padDigits 2 ss
      ++ ('.' :: (padDigits 3 ms ++ ['Z'])))))))))))))) =
    some (daysFromCivil (Int.ofNat y) (Int.ofNat mo) (Int.ofNat dd) * 86400000
      + (Int.ofNat hh) * 3600000 + (Int.ofNat mi) * 60000 + (Int.ofNat ss) * 1000
      + (Int.ofNat ms)) := by
  unfold parseIsoUtc
  rw [String_data_mk]
  rw [takeDatePart_canonical y mo dd _ (by omega) (by omega) (by omega), Option.some_bind]
  rw [expectChar_cons, Option.some_bind]
  rw [takeTimePart_canonical hh mi ss ms _ (by omega) (by omega) (by omega) (by omega),
    Option.some_bind]
  rw [if_pos (by exact ⟨rfl, hmo1, hmo, hdd1, hdd, hhh, hmi, hss⟩)]

/-- Formatting a representable instant and parsing it back is the
identity: the ISO codec loses nothing (at millisecond precision). -/
theorem parseIsoUtc_formatIsoMs (t : Int) (h : isoFormattable t) :
    parseIsoUtc (formatIsoMs t) = some t := by
  obtain ⟨h1, h9⟩ := h
  have hb := civilFromDays_bounds (t / 86400000)
  unfold formatIsoMs
  rw [if_neg (by omega)]
  have hmsod0 : 0 ≤ t % 86400000 := Int.emod_nonneg t (by norm_num)
  have hmsod1 : t % 86400000 < 86400000 := Int.emod_lt_of_pos t (by norm_num)
  rw [parseIsoUtc_canonical _ _ _ _ _ _ _
    (by omega) (by omega) (by omega) (by omega) (by omega) (by omega) (by omega) (by omega) (by omega)]
  congr 1
  have hcast : ∀ n : Int, 0 ≤ n → Int.ofNat n.toNat = n := by
    intro n hn; simp [Int.toNat_of_nonneg hn]
  rw [hcast _ (by omega), hcast _ (by omega), hcast _ (by omega),
    hcast _ (by omega), hcast _ (by omega), hcast _ (by omega), hcast _ (by omega)]
  rw [daysFromCivil_civilFromDays]
  omega

/-! ### QString helpers -/

/-- Model of `QString::trimmed`: strip whitespace from both ends. -/
def qtrim (s : String) : String :=
  String.mk (((s.data.dropWhile Char.isWhitespace).reverse.dropWhile Char.isWhitespace).reverse)

/-! ### JSON values

Model of Qt's `QJsonValue` / `QJsonObject`.  A JSON number is the
mathematical integer stored in the IEEE-754 double (every number the
embedded sources put into JSON is an integer-valued double).  A missing
key (`QJsonValue::Undefined`) is `none` at the accessor level.
`QJsonObject` stores keys uniquely; `toJson` below builds objects with
pairwise-distinct literal keys, so an association list with first-match
lookup has identical `value()` behaviour. -/

inductive Json where
  | null
  | bool (b : Bool)
  | num (n : Int)
  | str (s : String)
  | obj (fields : List (String × Json))
  | arr (elems : List Json)
deriving Repr

def jsonLookup : List (String × Json) → String → Option Json
  | [], _ => none
  | (k, v) :: rest, key => if k = key then some v else jsonLookup rest key

/-- Model of `QJsonObject::value` (on a non-object, of
`QJsonValue::toObject().value`, which sees an empty object). -/
def objValue : Json → String → Option Json
  | Json.obj fields, key => jsonLookup fields key
  | _, _ => none

/-- Model of `QJsonValue::toString()`: the string, or a null string. -/
def jsToString : Option Json → String
  | some (Json.str s) => s
  | _ => ""

/-- Model of `QJsonValue::toBool(defaultValue)`. -/
def jsToBool (v : Option Json) (d : Bool) : Bool :=
  match v with
  | some (Json.bool b) => b
  | _ => d

/-- Model of `QJsonValue::isNull`. -/
def jsIsNull : Option Json → Bool
  | some Json.null => true
  | _ => false

def isDigitChar (c : Char) : Bool := 48 ≤ c.toNat && c.toNat ≤ 57

def digitsToNat (l : List Char) : Nat :=
  l.foldl (fun a c => a * 10 + (c.toNat - 48)) 0

/-- Model of `QString::toLongLong` as invoked through
`QVariant::toLongLong` on a JSON string: optional sign and decimal
digits after trimming, else 0.  (Qt also rejects out-of-`qint64`-range
strings; no theorem exercises that case.) -/
def parseLongLong (s : String) : Int :=
  match (qtrim s).data with
  | '-' :: ds => if ds ≠ [] ∧ ds.all isDigitChar then -(Int.ofNat (digitsToNat ds)) else 0
  | '+' :: ds => if ds ≠ [] ∧ ds.all isDigitChar then Int.ofNat (digitsToNat ds) else 0
  | ds => if ds ≠ [] ∧ ds.all isDigitChar then Int.ofNat (digitsToNat ds) else 0

/-- Model of `QJsonValue::toVariant().toLongLong()`: a number converts
to its value, a bool to 0/1, a numeric string parses, anything else
(null, undefined, arrays, objects) gives 0. -/
def jsToLongLongVariant : Option Json → Int
  | some (Json.num n) => n
  | some (Json.bool b) => if b then 1 else 0
  | some (Json.str s) => parseLongLong s
  | _ => 0

/-- Model of `QJsonValue::toInt()`: the number if it fits in a 32-bit
int, otherwise the default 0. -/
def jsToIntQt (v : Option Json) : Int :=
  match v with
  | some (Json.num n) => if -2147483648 ≤ n ∧ n ≤ 2147483647 then n else 0
  | _ => 0

/-! ### static_cast<double>(qint64) -/

/-- Bit width (position of the highest set bit plus one), by fuelled
recursion; the fuel 64 covers every `qint64` magnitude. -/
def bitWidthFuel : Nat → Nat → Nat
  | 0, _ => 0
  | fuel + 1, n => if n = 0 then 0 else bitWidthFuel fuel (n / 2) + 1

def bitWidth (n : Nat) : Nat := bitWidthFuel 64 n

/-- Exact model of `static_cast<double>` on a `qint64`: round the
integer to the nearest IEEE-754 double (53-bit significand), ties to
even.  Values of magnitude below `2 ^ 53` are preserved exactly. -/
def castInt64ToDouble (i : Int) : Int :=
  let n := i.natAbs
  if n < 2 ^ 53 then i
  else
    let g := 2 ^ (bitWidth n - 53)
    let q := n / g
    let r := n % g
    let q' := if 2 * r < g then q else if g < 2 * r then q + 1
      else if q % 2 = 0 then q else q + 1
    (if i < 0 then -1 else 1) * Int.ofNat (q' * g)

theorem castInt64ToDouble_small (i : Int) (h : i.natAbs < 2 ^ 53) :
    castInt64ToDouble i = i := by
  unfold castInt64ToDouble
  rw [if_pos h]

/-- The cast is still exact at the boundary magnitude `2 ^ 53` (a power
of two is exactly representable). -/
theorem castInt64ToDouble_exact (i : Int) (h : i.natAbs ≤ 2 ^ 53) :
    castInt64ToDouble i = i := by
  rcases Nat.lt_or_ge i.natAbs (2 ^ 53) with hlt | hge
  · exact castInt64ToDouble_small i hlt
  · have heq : i.natAbs = 2 ^ 53 := Nat.le_antisymm h hge
    rcases Int.natAbs_eq i with hi | hi
    · rw [hi, heq]
      decide
    · rw [hi, heq]
      decide

/-! ### ScheduledTask (src/command-center/src/models/scheduled_task.{h,cpp}) -/

@[ext]
structure ScheduledTask where
  id : Option Int := none
  name : String := ""
  cronSchedule : String := ""
  actionName : String := ""
  actionFunction : String := ""
  actionConfiguration : String := ""
  timeout : Int := 0
  nextExecution : Option Int := none
  enabled : Bool := true
  immediate : Bool := false
  blackoutStart : Option Int := none
  blackoutEnd : Option Int := none
deriving DecidableEq, Repr

/-- `ScheduledTask::parseOptionalDate` (scheduled_task.cpp:5-22): a
non-string or blank value gives no date; otherwise the ISO parse (with
the wall clock reinterpreted as UTC), and an invalid parse gives no
date. -/
def ScheduledTask.parseOptionalDate (value : Option Json) : Option Int :=
  match value with
  | some (Json.str text) =>
    if qtrim text = "" then none
    else parseIsoUtc text
  | _ => none

/-- `ScheduledTask::fromJson` (scheduled_task.cpp:24-41). -/
def ScheduledTask.fromJson (obj : Json) : ScheduledTask :=
  { id :=
      if (objValue obj "id").isSome && !(jsIsNull (objValue obj "id")) then
        some (jsToLongLongVariant (objValue obj "id"))
      else none
    name := jsToString (objValue obj "name")
    cronSchedule := jsToString (objValue obj "cron_schedule")
    actionName := jsToString (objValue obj "action_name")
    actionFunction := jsToString (objValue obj "action_function")
    actionConfiguration := jsToString (objValue obj "action_configuration")
    timeout := jsToLongLongVariant (objValue obj "timeout")
    nextExecution := ScheduledTask.parseOptionalDate (objValue obj "next_execution")
    enabled := jsToBool (objValue obj "enabled") true
    immediate := jsToBool (objValue obj "immediate") false
    blackoutStart := ScheduledTask.parseOptionalDate (objValue obj "blackout_start")
    blackoutEnd := ScheduledTask.parseOptionalDate (objValue obj "blackout_end") }

/-- `ScheduledTask::dateOrNull` (scheduled_task.cpp:43-48). -/
def ScheduledTask.dateOrNull (dt : Option Int) : Json :=
  match dt with
  | none => Json.null
  | some d => Json.str (formatIsoMs d)

/-- `ScheduledTask::toJson` (scheduled_task.cpp:50-69). -/
def ScheduledTask.toJson (t : ScheduledTask) : Json :=
  Json.obj [
    ("id", match t.id with
      | some i => Json.num (castInt64ToDouble i)
      | none => Json.null),
    ("name", Json.str t.name),
    ("cron_schedule", Json.str t.cronSchedule),
    ("action_name", Json.str t.actionName),
    ("action_function", Json.str t.actionFunction),
    ("action_configuration", Json.str t.actionConfiguration),
    ("timeout", Json.num (castInt64ToDouble t.timeout)),
    ("next_execution", ScheduledTask.dateOrNull t.nextExecution),
    ("enabled", Json.bool t.enabled),
    ("immediate", Json.bool t.immediate),
    ("blackout_start", ScheduledTask.dateOrNull t.blackoutStart),
    ("blackout_end", ScheduledTask.dateOrNull t.blackoutEnd)]

/-! ### Task validation (src/command-center/src/utils/task_validator.h)
and the editor save handler -/

/-- `validateTask` (task_validator.h:5-25). -/
def validateTask (task : ScheduledTask) : String :=
  if qtrim task.name = "" then "Name is required"
  else if qtrim task.cronSchedule = "" then "Cron is required"
  else if qtrim task.actionName = "" then "Action name is required"
  else if qtrim task.actionFunction = "" then "Action function is required"
  else if qtrim task.actionConfiguration = "" then "Action configuration is required"
  else if task.timeout ≤ 0 then "Timeout must be > 0"
  else ""

/-- `TaskEditorDialog::handleSave` on the collected task: the displayed
error label text and the `saveRequested(task, creating)` emission, if
any. -/
def handleSave (task : ScheduledTask) (creating : Bool) :
    String × Option (ScheduledTask × Bool) :=
  let err := validateTask task
  if err ≠ "" then (err, none)
  else ("", some (task, creating))

/-! ### Gossip discovery (gossip_discovery.h and its translation unit)

The directory (`QHash<QString, WebServiceAnnouncement> services`) is an
association list keyed by `service_id`, with `QHash::insert` replacing
the value of an existing key.  `QHash` iteration order is unspecified;
the model iterates the list in insertion order, and every selection
theorem is quantified over an arbitrary list, so it covers every order.
A received datagram is modelled by its sender address together with the
outcome of `QJsonDocument::fromJson` on its bytes: `none` for a parse
error, `some j` for a parsed document `j` (which `handleGossip` then
requires to be an object). -/

structure WebServiceAnnouncement where
  serviceId : String := ""
  address : String := ""
  port : Nat := 0
  basePath : String := ""
  lastHeartbeat : Int := 0
deriving DecidableEq, Repr

structure GossipState where
  services : List (String × WebServiceAnnouncement) := []
  serviceBaseUrl : String := ""
deriving DecidableEq, Repr

inductive GossipEvent where
  | serviceUrlChanged (url : String)
  | errorOccurred (message : String)
deriving DecidableEq, Repr

/-- `QHash::insert`: replace the entry of an existing key, else add. -/
def hashInsert (l : List (String × WebServiceAnnouncement)) (k : String)
    (v : WebServiceAnnouncement) : List (String × WebServiceAnnouncement) :=
  if l.any (fun p => p.1 = k) then l.map (fun p => if p.1 = k then (k, v) else p)
  else l ++ [(k, v)]

def dirLookup : List (String × WebServiceAnnouncement) → String → Option WebServiceAnnouncement
  | [], _ => none
  | (k, v) :: rest, key => if k = key then some v else dirLookup rest key

/-- `GossipDiscovery::buildServiceBaseUrl`. -/
def buildServiceBaseUrl (svc : WebServiceAnnouncement) : String :=
  let base := "http://" ++ svc.address ++ ":" ++ natToDecStr svc.port
  let trimmed := qtrim svc.basePath
  let base1 :=
    if trimmed ≠ "" then
      if trimmed.data.head? = some '/' then base ++ trimmed else base ++ "/" ++ trimmed
    else base
  if base1.data.getLast? = some '/' then base1 else base1 ++ "/"

/-- Loop body of `GossipDiscovery::updateServiceUrl` (lines 84-89): an
invalid best time is replaced by any candidate; a valid one only by a
strictly later heartbeat. -/
def selectStep (best : Option WebServiceAnnouncement) (svc : WebServiceAnnouncement) :
    Option WebServiceAnnouncement :=
  match best with
  | none => some svc
  | some b => if b.lastHeartbeat < svc.lastHeartbeat then some svc else some b

/-- The selection loop of `GossipDiscovery::updateServiceUrl`. -/
def selectBest (l : List WebServiceAnnouncement) : Option WebServiceAnnouncement :=
  l.foldl selectStep none

/-- `GossipDiscovery::updateServiceUrl`: returns the new state and the
emitted signals. -/
def updateServiceUrl (st : GossipState) : GossipState × List GossipEvent :=
  match selectBest (st.services.map Prod.snd) with
  | none => (st, [])
  | some best =>
    let url := buildServiceBaseUrl best
    if url = st.serviceBaseUrl then (st, [])
    else ({ st with serviceBaseUrl := url }, [GossipEvent.serviceUrlChanged url])

/-- `QJsonValue::toObject()`: an empty object unless the value is an
object. -/
def jsToObj : Option Json → Json
  | some (Json.obj f) => Json.obj f
  | _ => Json.obj []

/-- Construction of the `WebServiceAnnouncement` from a datagram's
`service` object (handleGossip lines 60-73): a blank `address` is
replaced by the datagram sender address, `port` passes through
`QJsonValue::toInt` and `static_cast<quint16>`, a missing or invalid
`last_heartbeat` falls back to the current UTC time, and an empty
`service_id` is synthesized as `address:port`. -/
def mkAnnouncement (sender : String) (svcObj : Json) (now : Int) : WebServiceAnnouncement :=
  let sid0 := jsToString (objValue svcObj "service_id")
  let addr0 := jsToString (objValue svcObj "address")
  let addr := if qtrim addr0 = "" then sender else addr0
  let port := ((jsToIntQt (objValue svcObj "port")) % 65536).toNat
  let hb := (ScheduledTask.parseOptionalDate (objValue svcObj "last_heartbeat")).getD now
  let sid := if sid0 = "" then addr ++ ":" ++ natToDecStr port else sid0
  { serviceId := sid, address := addr, port := port,
    basePath := jsToString (objValue svcObj "base_path"), lastHeartbeat := hb }

/-- One iteration of the datagram loop of `GossipDiscovery::handleGossip`
(lines 49-75): drop anything that is not a JSON object of type
`web_service`, otherwise upsert the announcement keyed by its
service id. -/
def absorbDatagram (dir : List (String × WebServiceAnnouncement)) (sender : String)
    (payload : Option Json) (now : Int) : List (String × WebServiceAnnouncement) :=
  match payload with
  | none => dir
  | some root =>
    match root with
    | Json.obj _ =>
      if jsToString (objValue root "type") ≠ "web_service" then dir
      else
        let svc := mkAnnouncement sender (jsToObj (objValue root "service")) now
        hashInsert dir svc.serviceId svc
    | _ => dir

/-- `GossipDiscovery::handleGossip`: absorb every pending datagram, then
recompute the service URL. -/
def handleGossip (st : GossipState) (datagrams : List (String × Option Json)) (now : Int) :
    GossipState × List GossipEvent :=
  let dir := datagrams.foldl (fun d p => absorbDatagram d p.1 p.2 now) st.services
  updateServiceUrl { st with services := dir }

/-- Model of `QString::toUShort`: decimal digits (after trimming)
fitting in 16 bits, else failure.  (Qt additionally accepts a leading
sign; no theorem exercises that case.) -/
def toUShortQt (s : String) : Option Nat :=
  let t := qtrim s
  if t.data ≠ [] ∧ t.data.all isDigitChar then
    let v := digitsToNat t.data
    if v ≤ 65535 then some v else none
  else none

/-- Split a character list at every occurrence of `c`. -/
def splitOnChar (c : Char) : List Char → List (List Char)
  | [] => [[]]
  | x :: rest =>
    match splitOnChar c rest, decide (x = c) with
    | r, true => [] :: r
    | [], false => [[x]]
    | g :: gs, false => (x :: g) :: gs

/-- Model of `QHostAddress(QString)` restricted to IPv4 dotted-decimal
notation (Qt also accepts IPv6 and special forms; no theorem depends on
those): `some` of the address when valid, `none` for a null address. -/
def parseHostAddress (s : String) : Option String :=
  let parts := splitOnChar '.' s.data
  if parts.length = 4 ∧ parts.all (fun p =>
      p ≠ [] ∧ p.length ≤ 3 ∧ p.all isDigitChar ∧ digitsToNat p ≤ 255) then
    some s
  else none

structure StartResult where
  boundAddress : String
  boundPort : Nat
  events : List GossipEvent
  receiveHandlerInstalled : Bool
deriving DecidableEq, Repr

/-- `GossipDiscovery::start` (lines 11-38).  `envBind` / `envPort` are
the values of `RUNINATOR_GOSSIP_BIND` / `RUNINATOR_GOSSIP_PORT` (the
empty string when unset, as `qEnvironmentVariable` returns).  `bindErr`
is the outcome of `QUdpSocket::bind`, an operating-system effect: `none`
for success, `some errorString` for failure. -/
def GossipDiscovery.start (envBind envPort : String) (bindErr : Option String) : StartResult :=
  let bindAddress := if qtrim envBind = "" then "127.0.0.1" else envBind
  let port := if qtrim envPort = "" then 5504
    else match toUShortQt envPort with
      | some p => p
      | none => 5000
  let host := match parseHostAddress bindAddress with
    | some h => h
    | none => "127.0.0.1"
  match bindErr with
  | some msg =>
    { boundAddress := host, boundPort := port,
      events := [GossipEvent.errorOccurred ("Failed to bind gossip socket: " ++ msg)],
      receiveHandlerInstalled := false }
  | none =>
    { boundAddress := host, boundPort := port, events := [],
      receiveHandlerInstalled := true }

/-! ### Support lemmas -/

theorem digitChar_not_whitespace (d : Nat) (h : d ≤ 9) : (digitChar d).isWhitespace = false := by
  interval_cases d <;> decide

theorem digitChar_ne_slash (d : Nat) (h : d ≤ 9) : digitChar d ≠ '/' := by
  interval_cases d <;> decide

theorem dropWhile_ne_nil_of_mem (p : Char → Bool) (l : List Char) (c : Char)
    (hc : c ∈ l) (hpc : p c = false) : l.dropWhile p ≠ [] := by
  induction l with
  | nil => cases hc
  | cons a l ih =>
    rw [List.dropWhile_cons]
    split_ifs with hpa
    · rcases List.mem_cons.mp hc with h1 | h2
      · rw [h1] at hpc; rw [hpc] at hpa; cases hpa
      · exact ih h2
    · simp

theorem qtrim_cons_ne_empty (c : Char) (l : List Char) (hc : c.isWhitespace = false) :
    qtrim (String.mk (c :: l)) ≠ "" := by
  unfold qtrim
  intro hcontra
  have hX : (((c :: l).dropWhile Char.isWhitespace).reverse.dropWhile Char.isWhitespace).reverse
      = [] := by
    have := congrArg String.data hcontra
    simpa using this
  rw [List.dropWhile_cons, if_neg (by simp [hc])] at hX
  rw [List.reverse_eq_nil_iff] at hX
  exact dropWhile_ne_nil_of_mem _ _ c (by simp) hc hX

theorem qtrim_mk_padDigits (k n : Nat) (rest : List Char) :
    qtrim (String.mk (padDigits (k + 1) n ++ rest)) ≠ "" := by
  have hshape : padDigits (k + 1) n ++ rest
      = digitChar (n / 10 ^ k % 10) :: (padDigits k n ++ rest) := by
    simp [padDigits]
  rw [hshape]
  exact qtrim_cons_ne_empty _ _ (digitChar_not_whitespace _ (by omega))

theorem qtrim_formatIsoMs_ne_empty (x : Int) (h : isoFormattable x) :
    qtrim (formatIsoMs x) ≠ "" := by
  obtain ⟨h1, h9⟩ := h
  unfold formatIsoMs
  rw [if_neg (by omega)]
  exact qtrim_mk_padDigits 3 _ _

/-- `parseOptionalDate` inverts `dateOrNull` on representable dates. -/
theorem parseOptionalDate_dateOrNull (d : Option Int) (h : ∀ x ∈ d, isoFormattable x) :
    ScheduledTask.parseOptionalDate (some (ScheduledTask.dateOrNull d)) = d := by
  cases d with
  | none => rfl
  | some x =>
    have hf : isoFormattable x := h x rfl
    show ScheduledTask.parseOptionalDate (some (Json.str (formatIsoMs x))) = some x
    rw [show ScheduledTask.parseOptionalDate (some (Json.str (formatIsoMs x)))
        = if qtrim (formatIsoMs x) = "" then none else parseIsoUtc (formatIsoMs x) from rfl]
    rw [if_neg (qtrim_formatIsoMs_ne_empty x hf)]
    exact parseIsoUtc_formatIsoMs x hf

theorem padDigits_reverse_head (k n : Nat) :
    (padDigits (k + 1) n).reverse.head? = some (digitChar (n % 10)) := by
  induction k with
  | zero => simp [padDigits]
  | succ k ih =>
    rw [show padDigits (k + 2) n = digitChar (n / 10 ^ (k + 1) % 10) :: padDigits (k + 1) n
      from rfl]
    rw [List.reverse_cons, List.head?_append, ih]
    rfl

theorem natToDecStr_data_getLast (n : Nat) :
    (natToDecStr n).data.getLast? = some (digitChar (n % 10)) := by
  unfold natToDecStr
  rw [String_data_mk, List.getLast?_eq_head?_reverse]
  obtain ⟨k, hk⟩ : ∃ k, decWidth n = k + 1 :=
    ⟨decWidth n - 1, by have := decWidthFuel_pos 20 n; unfold decWidth; omega⟩
  rw [hk]
  exact padDigits_reverse_head k n

theorem natToDecStr_ne_nil (n : Nat) : (natToDecStr n).data ≠ [] := by
  intro h
  have := natToDecStr_data_getLast n
  rw [h] at this
  cases this

/-- The URL `GossipDiscovery::buildServiceBaseUrl` produces always ends
with a trailing slash. -/
theorem buildServiceBaseUrl_trailing_slash (svc : WebServiceAnnouncement) :
    (buildServiceBaseUrl svc).data.getLast? = some '/' := by
  simp only [buildServiceBaseUrl]
  split_ifs with h1 h2 h3 h4 h5 <;> first
    | assumption
    | (rw [String.data_append, List.getLast?_append]; rfl)

/-- With a blank base path the URL is exactly `http://address:port/`. -/
theorem buildServiceBaseUrl_empty_basePath (svc : WebServiceAnnouncement)
    (h : qtrim svc.basePath = "") :
    buildServiceBaseUrl svc
      = "http://" ++ svc.address ++ ":" ++ natToDecStr svc.port ++ "/" := by
  have hlast : ("http://" ++ svc.address ++ ":" ++ natToDecStr svc.port).data.getLast?
      = some (digitChar (svc.port % 10)) := by
    rw [String.data_append, List.getLast?_append, natToDecStr_data_getLast]
    rfl
  simp only [buildServiceBaseUrl, h, ne_eq, not_true_eq_false, ite_false]
  split_ifs with c2
  · exfalso
    have c2' : ("http://" ++ svc.address ++ ":" ++ natToDecStr svc.port).data.getLast?
        = some '/' := c2
    rw [hlast] at c2'
    injection c2' with c2''
    exact digitChar_ne_slash _ (by omega) c2''
  · rfl

/-- What the selection fold returns: a member (or the accumulator) whose
heartbeat dominates the list and the accumulator. -/
theorem foldl_selectStep_spec (l : List WebServiceAnnouncement) :
    ∀ (acc : Option WebServiceAnnouncement) (b : WebServiceAnnouncement),
      l.foldl selectStep acc = some b →
      (acc = some b ∨ b ∈ l) ∧ (∀ s ∈ l, s.lastHeartbeat ≤ b.lastHeartbeat) ∧
      (∀ a, acc = some a → a.lastHeartbeat ≤ b.lastHeartbeat) := by
  induction l with
  | nil =>
    intro acc b hfold
    refine ⟨Or.inl hfold, by simp, ?_⟩
    intro a ha
    rw [ha] at hfold
    injection hfold with hfold
    rw [hfold]
  | cons x xs ih =>
    intro acc b hfold
    rw [List.foldl_cons] at hfold
    obtain ⟨hmem, hmax, hacc⟩ := ih (selectStep acc x) b hfold
    have hstep : ∃ a1, selectStep acc x = some a1 ∧ x.lastHeartbeat ≤ a1.lastHeartbeat ∧
        (∀ a0, acc = some a0 → a0.lastHeartbeat ≤ a1.lastHeartbeat) ∧
        (∀ a0, selectStep acc x = some a0 → acc = some a0 ∨ a0 = x) := by
      cases acc with
      | none =>
        refine ⟨x, rfl, le_refl _, ?_, ?_⟩
        · intro a0 h0; cases h0
        · intro a0 h0
          have h0' : some x = some a0 := h0
          have h0'' : x = a0 := by injection h0'
          exact Or.inr h0''.symm
      | some a0 =>
        have hs : selectStep (some a0) x
            = if a0.lastHeartbeat < x.lastHeartbeat then some x else some a0 := rfl
        rw [hs]
        split_ifs with hlt
        · refine ⟨x, rfl, le_refl _, ?_, ?_⟩
          · intro a2 h2
            have h2' : a0 = a2 := by injection h2
            rw [← h2']; omega
          · intro a2 h2
            have h2' : x = a2 := by injection h2
            exact Or.inr h2'.symm
        · refine ⟨a0, rfl, by omega, ?_, ?_⟩
          · intro a2 h2
            have h2' : a0 = a2 := by injection h2
            rw [h2']
          · intro a2 h2
            have h2' : a0 = a2 := by injection h2
            exact Or.inl (by rw [h2'])
    obtain ⟨a1, ha1, hxa1, hacc1, hcases⟩ := hstep
    refine ⟨?_, ?_, ?_⟩
    · rcases hmem with hm | hm
      · rcases hcases b hm with hc | hc
        · exact Or.inl hc
        · exact Or.inr (by rw [hc]; exact List.mem_cons_self x xs)
      · exact Or.inr (List.mem_cons_of_mem x hm)
    · intro s hs
      rcases List.mem_cons.mp hs with hsx | hsxs
      · rw [hsx]
        exact le_trans hxa1 (hacc a1 ha1)
      · exact hmax s hsxs
    · intro a ha
      exact le_trans (hacc1 a ha) (hacc a1 ha1)

theorem selectStep_isSome (acc : Option WebServiceAnnouncement) (x : WebServiceAnnouncement) :
    ∃ a1, selectStep acc x = some a1 := by
  cases acc with
  | none => exact ⟨x, rfl⟩
  | some a0 =>
    show ∃ a1, (if a0.lastHeartbeat < x.lastHeartbeat then some x else some a0) = some a1
    split_ifs <;> exact ⟨_, rfl⟩

theorem foldl_selectStep_some (l : List WebServiceAnnouncement) :
    ∀ (a : WebServiceAnnouncement), ∃ b, l.foldl selectStep (some a) = some b := by
  induction l with
  | nil => intro a; exact ⟨a, rfl⟩
  | cons x xs ih =>
    intro a
    rw [List.foldl_cons]
    obtain ⟨a1, ha1⟩ := selectStep_isSome (some a) x
    rw [ha1]
    exact ih a1

/-- On a non-empty directory the selection produces a maximal member. -/
theorem selectBest_nonempty (l : List WebServiceAnnouncement) (h : l ≠ []) :
    ∃ b, selectBest l = some b ∧ b ∈ l ∧ ∀ s ∈ l, s.lastHeartbeat ≤ b.lastHeartbeat := by
  cases l with
  | nil => exact absurd rfl h
  | cons x xs =>
    unfold selectBest
    rw [List.foldl_cons]
    show ∃ b, xs.foldl selectStep (some x) = some b ∧ _
    obtain ⟨b, hb⟩ := foldl_selectStep_some xs x
    obtain ⟨hmem, hmax, hacc⟩ := foldl_selectStep_spec xs (some x) b hb
    refine ⟨b, hb, ?_, ?_⟩
    · rcases hmem with hm | hm
      · injection hm with hm; rw [← hm]; exact List.mem_cons_self x xs
      · exact List.mem_cons_of_mem x hm
    · intro s hs
      rcases List.mem_cons.mp hs with hsx | hsxs
      · rw [hsx]; exact hacc x rfl
      · exact hmax s hsxs

/-- `QHash::insert` lookup: the inserted value is found under its key. -/
theorem dirLookup_hashInsert (l : List (String × WebServiceAnnouncement)) (k : String)
    (v : WebServiceAnnouncement) : dirLookup (hashInsert l k v) k = some v := by
  unfold hashInsert
  split_ifs with hmem
  · induction l with
    | nil => cases hmem
    | cons p rest ih =>
      rw [List.map_cons]
      by_cases hp : p.1 = k
      · rw [if_pos hp]
        show dirLookup ((k, v) :: _) k = some v
        unfold dirLookup
        rw [if_pos rfl]
      · rw [if_neg hp]
        show dirLookup (p :: _) k = some v
        rw [show p = (p.1, p.2) from rfl]
        unfold dirLookup
        rw [if_neg hp]
        apply ih
        simp only [List.any_cons, Bool.or_eq_true, decide_eq_true_eq] at hmem
        rcases hmem with hm | hm
        · exact absurd hm hp
        · exact hm
  · induction l with
    | nil =>
      show dirLookup [(k, v)] k = some v
      unfold dirLookup
      rw [if_pos rfl]
    | cons p rest ih =>
      rw [List.cons_append]
      rw [show p = (p.1, p.2) from rfl]
      unfold dirLookup
      have hp : p.1 ≠ k := by
        intro hc
        exact hmem (by simp [List.any_cons, hc])
      rw [if_neg hp]
      apply ih
      intro hc
      exact hmem (by simp only [List.any_cons, Bool.or_eq_true]; exact Or.inr hc)

/-- Inserting under an existing key keeps the directory size. -/
theorem hashInsert_length_of_mem (l : List (String × WebServiceAnnouncement)) (k : String)
    (v : WebServiceAnnouncement) (h : l.any (fun p => p.1 = k) = true) :
    (hashInsert l k v).length = l.length := by
  unfold hashInsert
  rw [if_pos h, List.length_map]

/-- The key of an inserted entry is present afterwards. -/
theorem hashInsert_key_mem (l : List (String × WebServiceAnnouncement)) (k : String)
    (v : WebServiceAnnouncement) : (hashInsert l k v).any (fun p => p.1 = k) = true := by
  unfold hashInsert
  split_ifs with hmem
  · induction l with
    | nil => cases hmem
    | cons p rest ih =>
      rw [List.map_cons, List.any_cons]
      by_cases hp : p.1 = k
      · rw [if_pos hp]
        simp
      · rw [if_neg hp]
        simp only [Bool.or_eq_true, decide_eq_true_eq]
        right
        have : rest.any (fun p => p.1 = k) = true := by
          simp only [List.any_cons, Bool.or_eq_true, decide_eq_true_eq] at hmem
          rcases hmem with hm | hm
          · exact absurd hm hp
          · exact hm
        have := ih this
        simpa using this
  · rw [List.any_append]
    simp

/-- The port `GossipDiscovery::start` binds, as a function of the
environment value. -/
theorem start_boundPort (envBind envPort : String) (bindErr : Option String) :
    (GossipDiscovery.start envBind envPort bindErr).boundPort
      = if qtrim envPort = "" then 5504
        else match toUShortQt envPort with
          | some p => p
          | none => 5000 := by
  unfold GossipDiscovery.start
  cases bindErr <;> rfl

/-- The address `GossipDiscovery::start` binds, as a function of the
environment value. -/
theorem start_boundAddress (envBind envPort : String) (bindErr : Option String) :
    (GossipDiscovery.start envBind envPort bindErr).boundAddress
      = match parseHostAddress (if qtrim envBind = "" then "127.0.0.1" else envBind) with
        | some h => h
        | none => "127.0.0.1" := by
  unfold GossipDiscovery.start
  cases bindErr <;> rfl

theorem toUShortQt_some_ne_blank (s : String) (p : Nat) (h : toUShortQt s = some p) :
    qtrim s ≠ "" := by
  intro hblank
  unfold toUShortQt at h
  rw [hblank] at h
  simp at h

/-- The consumer state after `updateServiceUrl` on a non-empty
directory: a maximal-heartbeat member is selected, its URL is published,
and the change signal fires exactly when the URL differs. -/
theorem updateServiceUrl_selects (st : GossipState) (h : st.services ≠ []) :
    ∃ best, selectBest (st.services.map Prod.snd) = some best ∧
      best ∈ st.services.map Prod.snd ∧
      (∀ svc ∈ st.services.map Prod.snd, svc.lastHeartbeat ≤ best.lastHeartbeat) ∧
      (updateServiceUrl st).1.serviceBaseUrl = buildServiceBaseUrl best ∧
      ((updateServiceUrl st).2
        = if buildServiceBaseUrl best = st.serviceBaseUrl then []
          else [GossipEvent.serviceUrlChanged (buildServiceBaseUrl best)]) := by
  have hmapne : st.services.map Prod.snd ≠ [] := by
    intro hc
    exact h (List.map_eq_nil_iff.mp hc)
  obtain ⟨b, hb, hmem, hmax⟩ := selectBest_nonempty _ hmapne
  refine ⟨b, hb, hmem, hmax, ?_, ?_⟩
  · simp only [updateServiceUrl, hb]
    split_ifs with heq
    · exact heq.symm
    · rfl
  · simp only [updateServiceUrl, hb]
    split_ifs with heq <;> rfl

/-- Whether the stored `serviceBaseUrl` agrees with what the directory
currently selects (an invariant `updateServiceUrl` establishes). -/
def urlConsistent (st : GossipState) : Bool :=
  match selectBest (st.services.map Prod.snd) with
  | none => true
  | some b => buildServiceBaseUrl b == st.serviceBaseUrl

/-- `parseOptionalDate` yields no value on every missing, null, blank or
unparseable input. -/
theorem parseOptionalDate_none_cases (v : Option Json)
    (h : v = none ∨ v = some Json.null ∨
      ∃ s, v = some (Json.str s) ∧ (qtrim s = "" ∨ parseIsoUtc s = none)) :
    ScheduledTask.parseOptionalDate v = none := by
  rcases h with h | h | ⟨s, hs, hcase⟩
  · rw [h]; rfl
  · rw [h]; rfl
  · rw [hs]
    rw [show ScheduledTask.parseOptionalDate (some (Json.str s))
        = if qtrim s = "" then none else parseIsoUtc s from rfl]
    rcases hcase with hc | hc
    · rw [if_pos hc]
    · split_ifs with h1
      · rfl
      · exact hc

/-! ### Claim theorems -/

/-- Claim C6: when binding the gossip UDP socket fails, the error is
surfaced through `errorOccurred` with the bind failure message, no
receive handler is installed, and only the gossip subsystem stops — on a
successful bind the handler is installed and no error is reported. -/
theorem gossip_bind_failure_contained (envBind envPort msg : String) :
    (GossipDiscovery.start envBind envPort (some msg)).events
        = [GossipEvent.errorOccurred ("Failed to bind gossip socket: " ++ msg)] ∧
    (GossipDiscovery.start envBind envPort (some msg)).receiveHandlerInstalled = false ∧
    (GossipDiscovery.start envBind envPort none).receiveHandlerInstalled = true ∧
    (GossipDiscovery.start envBind envPort none).events = [] :=
  ⟨rfl, rfl, rfl, rfl⟩

theorem validateTask_empty_iff (task : ScheduledTask) :
    validateTask task = "" ↔
      (qtrim task.name ≠ "" ∧ qtrim task.cronSchedule ≠ "" ∧ qtrim task.actionName ≠ "" ∧
        qtrim task.actionFunction ≠ "" ∧ qtrim task.actionConfiguration ≠ "" ∧
        0 < task.timeout) := by
  unfold validateTask
  split_ifs with h1 h2 h3 h4 h5 h6
  · exact ⟨fun hx => absurd hx (by decide), fun hx => absurd h1 hx.1⟩
  · exact ⟨fun hx => absurd hx (by decide), fun hx => absurd h2 hx.2.1⟩
  · exact ⟨fun hx => absurd hx (by decide), fun hx => absurd h3 hx.2.2.1⟩
  · exact ⟨fun hx => absurd hx (by decide), fun hx => absurd h4 hx.2.2.2.1⟩
  · exact ⟨fun hx => absurd hx (by decide), fun hx => absurd h5 hx.2.2.2.2.1⟩
  · exact ⟨fun hx => absurd hx (by decide), fun hx => by omega⟩
  · exact ⟨fun hx => ⟨h1, h2, h3, h4, h5, by omega⟩, fun hx => rfl⟩

/-- Claim C7: a task with a blank (trimmed) name or a non-positive
timeout never validates — `validateTask` returns a non-empty error and
the editor's save handler emits no `saveRequested` — and `validateTask`
returns the empty string exactly when all five text fields are non-blank
and the timeout is positive. -/
theorem task_validation_blocks_save (task : ScheduledTask) (creating : Bool) :
    ((qtrim task.name = "" ∨ task.timeout ≤ 0) →
      validateTask task ≠ "" ∧ (handleSave task creating).2 = none) ∧
    (validateTask task = "" ↔
      (qtrim task.name ≠ "" ∧ qtrim task.cronSchedule ≠ "" ∧ qtrim task.actionName ≠ "" ∧
        qtrim task.actionFunction ≠ "" ∧ qtrim task.actionConfiguration ≠ "" ∧
        0 < task.timeout)) := by
  have hiff := validateTask_empty_iff task
  constructor
  · intro hOr
    have hne : validateTask task ≠ "" := by
      intro he
      obtain ⟨hn, _, _, _, _, htp⟩ := hiff.mp he
      rcases hOr with h | h
      · exact hn h
      · omega
    refine ⟨hne, ?_⟩
    simp only [handleSave]
    rw [if_pos hne]
  · exact hiff

/-- Witness for `task_validation_blocks_save` at a concrete blank-name
task. -/
theorem task_validation_blocks_save_witness :
    validateTask { name := "", cronSchedule := "* * * * *", actionName := "Console",
                   actionFunction := "run_console", actionConfiguration := "echo hi",
                   timeout := 5 } ≠ "" ∧
    (handleSave { name := "", cronSchedule := "* * * * *", actionName := "Console",
                  actionFunction := "run_console", actionConfiguration := "echo hi",
                  timeout := 5 }
      true).2 = none :=
  (task_validation_blocks_save _ true).1 (Or.inl (by decide))

/-- Claim C8: a blank or unset `RUNINATOR_GOSSIP_BIND` binds 127.0.0.1,
a blank or unset `RUNINATOR_GOSSIP_PORT` binds 5504, and valid values of
both bind the given address and port. -/
theorem gossip_start_env_defaults (envBind envPort : String) (bindErr : Option String) :
    ((qtrim envBind = "" →
        (GossipDiscovery.start envBind envPort bindErr).boundAddress = "127.0.0.1") ∧
      (qtrim envPort = "" →
        (GossipDiscovery.start envBind envPort bindErr).boundPort = 5504)) ∧
    ((qtrim envBind ≠ "" ∧ (parseHostAddress envBind).isSome = true →
        (GossipDiscovery.start envBind envPort bindErr).boundAddress = envBind) ∧
      (∀ p, toUShortQt envPort = some p →
        (GossipDiscovery.start envBind envPort bindErr).boundPort = p)) := by
  refine ⟨⟨?_, ?_⟩, ?_, ?_⟩
  · intro h
    rw [start_boundAddress, if_pos h]
    decide
  · intro h
    rw [start_boundPort, if_pos h]
  · intro hpair
    obtain ⟨h1, h2⟩ := hpair
    rw [start_boundAddress, if_neg h1]
    obtain ⟨a, ha⟩ := Option.isSome_iff_exists.mp h2
    have haeq : a = envBind := by
      simp only [parseHostAddress] at ha
      split_ifs at ha with hc
      injection ha with h3
      exact h3.symm
    rw [ha, haeq]
  · intro p hp
    rw [start_boundPort, if_neg (toUShortQt_some_ne_blank envPort p hp), hp]

/-- Witness for `gossip_start_env_defaults` at blank and at valid
environment values. -/
theorem gossip_start_env_defaults_witness :
    (GossipDiscovery.start "" "" none).boundAddress = "127.0.0.1" ∧
    (GossipDiscovery.start "" "" none).boundPort = 5504 ∧
    (GossipDiscovery.start "10.1.2.3" "6000" none).boundAddress = "10.1.2.3" ∧
    (GossipDiscovery.start "10.1.2.3" "6000" none).boundPort = 6000 :=
  ⟨(gossip_start_env_defaults "" "" none).1.1 (by decide),
   (gossip_start_env_defaults "" "" none).1.2 (by decide),
   (gossip_start_env_defaults "10.1.2.3" "6000" none).2.1 ⟨by decide, by decide⟩,
   (gossip_start_env_defaults "10.1.2.3" "6000" none).2.2 6000 (by decide)⟩

/-- Claim C9: a non-blank `RUNINATOR_GOSSIP_PORT` that does not parse as
an unsigned 16-bit integer binds port 5000 — a third fallback distinct
from the documented default 5504. -/
theorem gossip_start_invalid_port_fallback (envBind envPort : String) (bindErr : Option String)
    (h1 : qtrim envPort ≠ "") (h2 : toUShortQt envPort = none) :
    (GossipDiscovery.start envBind envPort bindErr).boundPort = 5000 ∧ (5000 : Nat) ≠ 5504 := by
  refine ⟨?_, by decide⟩
  rw [start_boundPort, if_neg h1, h2]

/-- Witness for `gossip_start_invalid_port_fallback` on a non-numeric
port value. -/
theorem gossip_start_invalid_port_fallback_witness :
    (GossipDiscovery.start "" "not-a-port" none).boundPort = 5000 ∧ (5000 : Nat) ≠ 5504 :=
  gossip_start_invalid_port_fallback "" "not-a-port" none (by decide) (by decide)

/-- Claim C2 (counterexample): with `ANNOUNCE_TTL` = 10 s, an
announcement whose heartbeat is 11 s older than now is neither removed
from the directory nor skipped: `updateServiceUrl` still selects it and
publishes its URL.  No expiry logic exists in the code. -/
theorem gossip_ttl_expiry_counterexample :
    (let ann : WebServiceAnnouncement :=
       { serviceId := "svc-1", address := "10.0.0.1", port := 8080, basePath := "",
         lastHeartbeat := 0 }
     let st : GossipState := { services := [("svc-1", ann)], serviceBaseUrl := "" }
     (10000 : Int) < 11000 - ann.lastHeartbeat ∧
     (updateServiceUrl st).1.serviceBaseUrl = "http://10.0.0.1:8080/" ∧
     (updateServiceUrl st).2 = [GossipEvent.serviceUrlChanged "http://10.0.0.1:8080/"] ∧
     (updateServiceUrl st).1.services = st.services) := by
  decide

/-- Claim C2 (amended): the gossip directory never expires entries.
`updateServiceUrl` does not consult the clock: even when every stored
announcement is staler than any given TTL, the directory is left intact
and the maximal-heartbeat announcement — however stale — is still
selected and its URL published. -/
theorem gossip_no_ttl_expiry (st : GossipState) (now ttl : Int) (h : st.services ≠ [])
    (hstale : ∀ p ∈ st.services, ttl < now - p.2.lastHeartbeat) :
    (updateServiceUrl st).1.services = st.services ∧
    ∃ best, selectBest (st.services.map Prod.snd) = some best ∧
      best ∈ st.services.map Prod.snd ∧ ttl < now - best.lastHeartbeat ∧
      (updateServiceUrl st).1.serviceBaseUrl = buildServiceBaseUrl best := by
  obtain ⟨best, hsel, hmem, hmax, hurl, hev⟩ := updateServiceUrl_selects st h
  refine ⟨?_, best, hsel, hmem, ?_, hurl⟩
  · simp only [updateServiceUrl, hsel]
    split_ifs <;> rfl
  · obtain ⟨p, hp, hpe⟩ := List.mem_map.mp hmem
    rw [← hpe]
    exact hstale p hp

/-- Witness for `gossip_no_ttl_expiry`: a directory whose only entry is
far staler than a 10 s TTL. -/
theorem gossip_no_ttl_expiry_witness :
    (let ann : WebServiceAnnouncement :=
       { serviceId := "svc-2", address := "192.168.0.9", port := 9001, basePath := "api",
         lastHeartbeat := 5000 }
     let st : GossipState := { services := [("svc-2", ann)], serviceBaseUrl := "" }
     (updateServiceUrl st).1.services = st.services ∧
     ∃ best, selectBest (st.services.map Prod.snd) = some best ∧
       best ∈ st.services.map Prod.snd ∧ (10000 : Int) < 99999 - best.lastHeartbeat ∧
       (updateServiceUrl st).1.serviceBaseUrl = buildServiceBaseUrl best) :=
  gossip_no_ttl_expiry _ 99999 10000 (by decide) (by decide)

/-- Claim C3: on every non-empty directory the consumer selects an
announcement with maximal `last_heartbeat`, publishes its URL, the URL
always ends in '/', an empty base path yields exactly
`http://address:port/`, and `serviceUrlChanged` is emitted exactly when
the constructed URL differs from the previously published one. -/
theorem gossip_consumer_url_selection (st : GossipState) (h : st.services ≠ []) :
    ∃ best, selectBest (st.services.map Prod.snd) = some best ∧
      best ∈ st.services.map Prod.snd ∧
      (∀ svc ∈ st.services.map Prod.snd, svc.lastHeartbeat ≤ best.lastHeartbeat) ∧
      (updateServiceUrl st).1.serviceBaseUrl = buildServiceBaseUrl best ∧
      (buildServiceBaseUrl best).data.getLast? = some '/' ∧
      (qtrim best.basePath = "" →
        buildServiceBaseUrl best
          = "http://" ++ best.address ++ ":" ++ natToDecStr best.port ++ "/") ∧
      (buildServiceBaseUrl best ≠ st.serviceBaseUrl →
        (updateServiceUrl st).2 = [GossipEvent.serviceUrlChanged (buildServiceBaseUrl best)]) ∧
      (buildServiceBaseUrl best = st.serviceBaseUrl → (updateServiceUrl st).2 = []) := by
  obtain ⟨best, hsel, hmem, hmax, hurl, hev⟩ := updateServiceUrl_selects st h
  refine ⟨best, hsel, hmem, hmax, hurl, buildServiceBaseUrl_trailing_slash best,
    buildServiceBaseUrl_empty_basePath best, ?_, ?_⟩
  · intro hne
    rw [hev, if_neg hne]
  · intro heq
    rw [hev, if_pos heq]

/-- Witness for `gossip_consumer_url_selection` on a two-entry
directory. -/
theorem gossip_consumer_url_selection_witness :
    (let a1 : WebServiceAnnouncement :=
       { serviceId := "a", address := "10.0.0.1", port := 8080, basePath := "",
         lastHeartbeat := 100 }
     let a2 : WebServiceAnnouncement :=
       { serviceId := "b", address := "10.0.0.2", port := 8081, basePath := "api",
         lastHeartbeat := 200 }
     let st : GossipState := { services := [("a", a1), ("b", a2)], serviceBaseUrl := "" }
     ∃ best, selectBest (st.services.map Prod.snd) = some best ∧
       best ∈ st.services.map Prod.snd ∧
       (∀ svc ∈ st.services.map Prod.snd, svc.lastHeartbeat ≤ best.lastHeartbeat) ∧
       (updateServiceUrl st).1.serviceBaseUrl = buildServiceBaseUrl best ∧
       (buildServiceBaseUrl best).data.getLast? = some '/' ∧
       (qtrim best.basePath = "" →
         buildServiceBaseUrl best
           = "http://" ++ best.address ++ ":" ++ natToDecStr best.port ++ "/") ∧
       (buildServiceBaseUrl best ≠ st.serviceBaseUrl →
         (updateServiceUrl st).2 = [GossipEvent.serviceUrlChanged (buildServiceBaseUrl best)]) ∧
       (buildServiceBaseUrl best = st.serviceBaseUrl → (updateServiceUrl st).2 = [])) :=
  gossip_consumer_url_selection _ (by decide)

/-- Claim C5: a datagram whose payload fails JSON parsing or is not a
JSON object leaves the directory and the published URL unchanged and
emits nothing (it is silently dropped). -/
theorem gossip_unparseable_datagram_dropped (st : GossipState) (sender : String)
    (payload : Option Json) (now : Int)
    (hbad : payload = none ∨ ∀ fs, payload ≠ some (Json.obj fs))
    (hcons : urlConsistent st = true) :
    handleGossip st [(sender, payload)] now = (st, []) := by
  have hdir : absorbDatagram st.services sender payload now = st.services := by
    rcases hbad with h | h
    · rw [h]
      rfl
    · cases payload with
      | none => rfl
      | some j =>
        cases j with
        | obj fs => exact absurd rfl (h fs)
        | null => rfl
        | bool b => rfl
        | num n => rfl
        | str s => rfl
        | arr es => rfl
  show updateServiceUrl { st with services := absorbDatagram st.services sender payload now }
      = (st, [])
  rw [hdir]
  rw [show ({ st with services := st.services } : GossipState) = st from rfl]
  cases hsel : selectBest (st.services.map Prod.snd) with
  | none => simp only [updateServiceUrl, hsel]
  | some b =>
    have hcons2 : (buildServiceBaseUrl b == st.serviceBaseUrl) = true := by
      unfold urlConsistent at hcons
      rw [hsel] at hcons
      exact hcons
    simp only [updateServiceUrl, hsel]
    rw [if_pos (eq_of_beq hcons2)]

/-- Witness for `gossip_unparseable_datagram_dropped`: an unparseable
datagram against an empty directory. -/
theorem gossip_unparseable_datagram_dropped_witness :
    handleGossip { services := [], serviceBaseUrl := "" } [("10.0.0.5", none)] 0
      = ({ services := [], serviceBaseUrl := "" }, []) :=
  gossip_unparseable_datagram_dropped _ "10.0.0.5" none 0 (Or.inl rfl) rfl

/-- Claim C4: a well-formed `web_service` datagram is turned into an
announcement — blank embedded address replaced by the sender IP, empty
service_id synthesized as `address:port`, last_heartbeat taken from the
datagram or the current time — and upserted into the directory keyed by
service_id: a later insert under the same key overwrites the stored
entry without growing the directory. -/
theorem gossip_wellformed_datagram_upsert (dir : List (String × WebServiceAnnouncement))
    (sender : String) (root : Json) (now : Int)
    (hobj : ∃ fs, root = Json.obj fs)
    (htype : jsToString (objValue root "type") = "web_service") :
    absorbDatagram dir sender (some root) now
        = hashInsert dir (mkAnnouncement sender (jsToObj (objValue root "service")) now).serviceId
            (mkAnnouncement sender (jsToObj (objValue root "service")) now) ∧
    (qtrim (jsToString (objValue (jsToObj (objValue root "service")) "address")) = "" →
      (mkAnnouncement sender (jsToObj (objValue root "service")) now).address = sender) ∧
    (jsToString (objValue (jsToObj (objValue root "service")) "service_id") = "" →
      (mkAnnouncement sender (jsToObj (objValue root "service")) now).serviceId
        = (mkAnnouncement sender (jsToObj (objValue root "service")) now).address ++ ":"
          ++ natToDecStr (mkAnnouncement sender (jsToObj (objValue root "service")) now).port) ∧
    (mkAnnouncement sender (jsToObj (objValue root "service")) now).lastHeartbeat
        = (ScheduledTask.parseOptionalDate
            (objValue (jsToObj (objValue root "service")) "last_heartbeat")).getD now ∧
    (∀ v2 : WebServiceAnnouncement, ∀ k : String,
      dirLookup (hashInsert (absorbDatagram dir sender (some root) now) k v2) k = some v2 ∧
      ((absorbDatagram dir sender (some root) now).any (fun p => p.1 = k) = true →
        (hashInsert (absorbDatagram dir sender (some root) now) k v2).length
          = (absorbDatagram dir sender (some root) now).length)) := by
  obtain ⟨fs, rfl⟩ := hobj
  refine ⟨?_, ?_, ?_, ?_, ?_⟩
  · rw [show absorbDatagram dir sender (some (Json.obj fs)) now
        = (if jsToString (objValue (Json.obj fs) "type") ≠ "web_service" then dir
           else
             hashInsert dir
               (mkAnnouncement sender (jsToObj (objValue (Json.obj fs) "service")) now).serviceId
               (mkAnnouncement sender (jsToObj (objValue (Json.obj fs) "service")) now))
        from rfl]
    rw [if_neg (by simp [htype])]
  · intro h
    simp only [mkAnnouncement]
    rw [if_pos h]
  · intro h
    simp only [mkAnnouncement]
    rw [if_pos h]
  · simp only [mkAnnouncement]
  · intro v2 k
    exact ⟨dirLookup_hashInsert _ _ _, fun hm => hashInsert_length_of_mem _ _ _ hm⟩

/-- Witness for `gossip_wellformed_datagram_upsert` on a datagram with a
blank address and no service_id. -/
theorem gossip_wellformed_datagram_upsert_witness :
    (let root : Json := Json.obj [("type", Json.str "web_service"),
                                  ("service", Json.obj [("port", Json.num 8080)])]
     let sender := "10.9.9.9"
     let dir : List (String × WebServiceAnnouncement) := []
     absorbDatagram dir sender (some root) 5
         = hashInsert dir (mkAnnouncement sender (jsToObj (objValue root "service")) 5).serviceId
             (mkAnnouncement sender (jsToObj (objValue root "service")) 5) ∧
     (qtrim (jsToString (objValue (jsToObj (objValue root "service")) "address")) = "" →
       (mkAnnouncement sender (jsToObj (objValue root "service")) 5).address = sender) ∧
     (jsToString (objValue (jsToObj (objValue root "service")) "service_id") = "" →
       (mkAnnouncement sender (jsToObj (objValue root "service")) 5).serviceId
         = (mkAnnouncement sender (jsToObj (objValue root "service")) 5).address ++ ":"
           ++ natToDecStr (mkAnnouncement sender (jsToObj (objValue root "service")) 5).port) ∧
     (mkAnnouncement sender (jsToObj (objValue root "service")) 5).lastHeartbeat
         = (ScheduledTask.parseOptionalDate
             (objValue (jsToObj (objValue root "service")) "last_heartbeat")).getD 5 ∧
     (∀ v2 : WebServiceAnnouncement, ∀ k : String,
       dirLookup (hashInsert (absorbDatagram dir sender (some root) 5) k v2) k = some v2 ∧
       ((absorbDatagram dir sender (some root) 5).any (fun p => p.1 = k) = true →
         (hashInsert (absorbDatagram dir sender (some root) 5) k v2).length
           = (absorbDatagram dir sender (some root) 5).length))) :=
  gossip_wellformed_datagram_upsert [] "10.9.9.9"
    (Json.obj [("type", Json.str "web_service"),
               ("service", Json.obj [("port", Json.num 8080)])]) 5
    ⟨_, rfl⟩ (by decide)

/-- Claim C10: `fromJson` is lenient — a missing or non-boolean
`enabled` defaults to true, a missing `immediate` defaults to false, and
a missing, null, blank or unparseable datetime string for
`next_execution`, `blackout_start` or `blackout_end` yields no value
rather than an error. -/
theorem fromJson_lenient_defaults (obj : Json) :
    ((∀ b, objValue obj "enabled" ≠ some (Json.bool b)) →
      (ScheduledTask.fromJson obj).enabled = true) ∧
    (objValue obj "immediate" = none → (ScheduledTask.fromJson obj).immediate = false) ∧
    ((objValue obj "next_execution" = none ∨ objValue obj "next_execution" = some Json.null ∨
       ∃ s, objValue obj "next_execution" = some (Json.str s) ∧
         (qtrim s = "" ∨ parseIsoUtc s = none)) →
      (ScheduledTask.fromJson obj).nextExecution = none) ∧
    ((objValue obj "blackout_start" = none ∨ objValue obj "blackout_start" = some Json.null ∨
       ∃ s, objValue obj "blackout_start" = some (Json.str s) ∧
         (qtrim s = "" ∨ parseIsoUtc s = none)) →
      (ScheduledTask.fromJson obj).blackoutStart = none) ∧
    ((objValue obj "blackout_end" = none ∨ objValue obj "blackout_end" = some Json.null ∨
       ∃ s, objValue obj "blackout_end" = some (Json.str s) ∧
         (qtrim s = "" ∨ parseIsoUtc s = none)) →
      (ScheduledTask.fromJson obj).blackoutEnd = none) := by
  refine ⟨?_, ?_, ?_, ?_, ?_⟩
  · intro hb
    show jsToBool (objValue obj "enabled") true = true
    cases hv : objValue obj "enabled" with
    | none => rfl
    | some j =>
      cases j with
      | bool b => exact absurd hv (hb b)
      | null => rfl
      | num n => rfl
      | str s => rfl
      | obj fs => rfl
      | arr es => rfl
  · intro h
    show jsToBool (objValue obj "immediate") false = false
    rw [h]
    rfl
  · intro h
    exact parseOptionalDate_none_cases _ h
  · intro h
    exact parseOptionalDate_none_cases _ h
  · intro h
    exact parseOptionalDate_none_cases _ h

/-- Witness for `fromJson_lenient_defaults` on an object with a
non-boolean `enabled`, no `immediate`, an unparseable `next_execution`,
a null `blackout_start` and no `blackout_end`. -/
theorem fromJson_lenient_defaults_witness :
    (let obj := Json.obj [("enabled", Json.str "yes"),
                          ("next_execution", Json.str "not-a-date"),
                          ("blackout_start", Json.null)]
     (ScheduledTask.fromJson obj).enabled = true ∧
     (ScheduledTask.fromJson obj).immediate = false ∧
     (ScheduledTask.fromJson obj).nextExecution = none ∧
     (ScheduledTask.fromJson obj).blackoutStart = none ∧
     (ScheduledTask.fromJson obj).blackoutEnd = none) :=
  ⟨(fromJson_lenient_defaults _).1
      (by intro b h; injection h with h2; exact Json.noConfusion h2),
   (fromJson_lenient_defaults _).2.1 rfl,
   (fromJson_lenient_defaults _).2.2.1 (Or.inr (Or.inr ⟨"not-a-date", rfl, Or.inr rfl⟩)),
   (fromJson_lenient_defaults _).2.2.2.1 (Or.inr (Or.inl rfl)),
   (fromJson_lenient_defaults _).2.2.2.2 (Or.inl rfl)⟩

/-- Claim C1 (counterexample): the JSON round trip is not the identity.
An id of 2^53 + 1 loses precision through the `static_cast<double>` in
`toJson` (QJsonValue stores doubles), and a `next_execution` in year
10000 serializes to the empty string (outside `QDateTime`'s printable
ISO range) and deserializes to null. -/
theorem scheduledTask_roundtrip_counterexample :
    (let tBig : ScheduledTask :=
       { id := some 9007199254740993, name := "t", cronSchedule := "* * * * *",
         actionName := "Console", actionFunction := "run_console",
         actionConfiguration := "echo hi", timeout := 1000 }
     let tFar : ScheduledTask :=
       { name := "t", cronSchedule := "* * * * *", actionName := "Console",
         actionFunction := "run_console", actionConfiguration := "echo hi",
         timeout := 1000, nextExecution := some 253402300800000 }
     ((ScheduledTask.fromJson (ScheduledTask.toJson tBig)).id = some 9007199254740992 ∧
       tBig.id = some 9007199254740993 ∧
       ScheduledTask.fromJson (ScheduledTask.toJson tBig) ≠ tBig) ∧
     ((ScheduledTask.fromJson (ScheduledTask.toJson tFar)).nextExecution = none ∧
       tFar.nextExecution = some 253402300800000 ∧
       ScheduledTask.fromJson (ScheduledTask.toJson tFar) ≠ tFar)) := by
  decide

/-- Claim C1 (amended): the round trip `fromJson ∘ toJson` is the
identity provided |id| and |timeout| are at most 2^53 (exactly
representable as IEEE-754 doubles) and every datetime field lies in
years 1..9999, the printable range of Qt's ISODateWithMs format —
datetimes being compared as UTC instants at millisecond precision. -/
theorem scheduledTask_roundtrip_amended (t : ScheduledTask)
    (hid : ∀ i ∈ t.id, i.natAbs ≤ 2 ^ 53)
    (hto : t.timeout.natAbs ≤ 2 ^ 53)
    (hne : ∀ x ∈ t.nextExecution, isoFormattable x)
    (hbs : ∀ x ∈ t.blackoutStart, isoFormattable x)
    (hbe : ∀ x ∈ t.blackoutEnd, isoFormattable x) :
    ScheduledTask.fromJson (ScheduledTask.toJson t) = t := by
  obtain ⟨tid, tname, tcron, tan, taf, tac, tto, tne, ten, tim, tbs, tbe⟩ := t
  apply ScheduledTask.ext
  · cases tid with
    | none => rfl
    | some i =>
      show some (castInt64ToDouble i) = some i
      rw [castInt64ToDouble_exact i (hid i rfl)]
  · rfl
  · rfl
  · rfl
  · rfl
  · rfl
  · exact castInt64ToDouble_exact tto hto
  · exact parseOptionalDate_dateOrNull tne hne
  · rfl
  · rfl
  · exact parseOptionalDate_dateOrNull tbs hbs
  · exact parseOptionalDate_dateOrNull tbe hbe

/-- Witness for `scheduledTask_roundtrip_amended` at a concrete task
with the boundary id 2^53, a small timeout and representable dates. -/
theorem scheduledTask_roundtrip_amended_witness :
    ScheduledTask.fromJson (ScheduledTask.toJson
      { id := some 9007199254740992, name := "t", cronSchedule := "* * * * *",
        actionName := "Console", actionFunction := "run_console",
        actionConfiguration := "echo hi", timeout := 1000,
        nextExecution := some 1737008700123, enabled := true, immediate := false,
        blackoutStart := some 0, blackoutEnd := none })
      = { id := some 9007199254740992, name := "t", cronSchedule := "* * * * *",
          actionName := "Console", actionFunction := "run_console",
          actionConfiguration := "echo hi", timeout := 1000,
          nextExecution := some 1737008700123, enabled := true, immediate := false,
          blackoutStart := some 0, blackoutEnd := none } :=
  scheduledTask_roundtrip_amended _
    (by intro i hi; rw [Option.mem_def] at hi; injection hi with h2; subst h2; decide)
    (by decide)
    (by intro x hx; rw [Option.mem_def] at hx; injection hx with h2; subst h2; decide)
    (by intro x hx; rw [Option.mem_def] at hx; injection hx with h2; subst h2; decide)
    (by intro x hx; rw [Option.mem_def] at hx; cases hx)
